import Mathlib

/-!
# Verification of the financial data-point extraction engine

Shallow embedding of `AnalysisRepository.extract_financial_data_points`
(src/backend/app/repositories/analysis_repository.py) and the pieces of
`AnalysisRepository.create_analysis_result` and
`UserService.extract_financial_data_points` (src/backend/app/services/user.py)
that the claims touch.

Conventions of the embedding:
* a Python `str` is a `List Char`; `str.split()`, `str.split('\n')`,
  `str.strip()`, `str.lower()`, `s[1:]`, `s[:150]`, `x in s`, `s.find(t)`
  become the word-splitting, line-splitting, strip, lower, drop, take,
  substring-containment and substring-index functions below (ASCII-faithful);
* the Python dicts used as records become Lean structures; the `metrics`
  dict becomes an insertion-ordered association list;
* Python floats become `ℚ` (the score arithmetic only adds the constants
  0.2/0.15/0.05 and clamps with `min(-, 1.0)`, so exact rationals carry the
  same order facts the claims assert);
* `re.findall(pattern, text, re.IGNORECASE)` for the two fixed pattern shapes
  of the source (`(?:label|...).*?(\$[\d,]+\.?\d*[BMK]?)` and
  `(?:label|...).*?(\d+(?:,\d{3})*(?:\.\d{2})?)\s*(?:million|billion|thousand|M|B|K)`)
  is implemented as a left-to-right non-overlapping scanner: at each start
  position the label alternatives are tried in order, the lazy `.*?` expands
  one (non-newline) character at a time, and the value shape is matched
  greedily.  For these concrete shapes greedy matching agrees with the
  backtracking engine: every component following a greedy repetition starts
  with a character class disjoint from the repeated class;
* the `try ... except Exception: return all-empty` wrapper becomes a total
  function over an `Except`-valued body.
-/

set_option maxRecDepth 100000

/-- Python whitespace characters recognised by `str.split()`/`str.strip()`
(`\s` of the `re` module on ASCII text). -/
def pyIsSpace (c : Char) : Bool :=
  c = ' ' || c = '\t' || c = '\n' || c = '\r' || c = '\x0b' || c = '\x0c'

/-- Python `str.strip()`. -/
def pyStrip (l : List Char) : List Char :=
  ((l.dropWhile pyIsSpace).reverse.dropWhile pyIsSpace).reverse

/-- Python `str.lower()` (ASCII). -/
def pyLower (l : List Char) : List Char :=
  l.map Char.toLower

/-- Split at every separator character, keeping empty pieces
(the semantics of Python's `str.split(sep)` for a one-character `sep`). -/
def splitOnPred (p : Char → Bool) : List Char → List (List Char)
  | [] => [[]]
  | c :: cs =>
    if p c then [] :: splitOnPred p cs
    else
      match splitOnPred p cs with
      | l :: ls => (c :: l) :: ls
      | [] => [[c]]

/-- Python `str.split('\n')`. -/
def pySplitLines (l : List Char) : List (List Char) :=
  splitOnPred (fun c => c = '\n') l

/-- Python `str.split()` with no argument: split on whitespace runs,
dropping empty pieces. -/
def pyWords (l : List Char) : List (List Char) :=
  (splitOnPred pyIsSpace l).filter (fun w => ¬ w.isEmpty)

/-- Python `' '.join(ws)`. -/
def joinSpace (ws : List (List Char)) : List Char :=
  (List.intersperse [' '] ws).flatten

/-- Python `pat in l` (substring containment). -/
def isSub (pat : List Char) : List Char → Bool
  | [] => pat.isPrefixOf []
  | c :: cs => pat.isPrefixOf (c :: cs) || isSub pat cs

/-- Python `l.find(pat)` returning `none` for `-1`. -/
def idxOfSub (pat : List Char) : List Char → Option Nat
  | [] => if pat.isPrefixOf [] then some 0 else none
  | c :: cs =>
    if pat.isPrefixOf (c :: cs) then some 0
    else (idxOfSub pat cs).map (· + 1)

/-- Case-insensitive literal match at the front of a text, as `re` performs
for a lowercase literal alternative under `re.IGNORECASE`. -/
def isPrefixCI : List Char → List Char → Bool
  | [], _ => true
  | _ :: _, [] => false
  | a :: as, b :: bs => a.toLower = b.toLower && isPrefixCI as bs

/-- The truncation marker appended by the 200-word cap
(`"... [truncated to 200 words]"`, analysis_repository.py line 33). -/
def truncMarker : List Char := "... [truncated to 200 words]".data

/-- Lines 30–33 of analysis_repository.py: the text the extraction passes
actually scan.  `words = summary_text.split(); if len(words) > 200:
summary_text = ' '.join(words[:200]) + "... [truncated to 200 words]"`. -/
def scannedText (summary_text : List Char) : List Char :=
  let words := pyWords summary_text
  if words.length > 200 then joinSpace (words.take 200) ++ truncMarker
  else summary_text

/-- The `summary` field persisted by `create_analysis_result`
(analysis_repository.py line 238): `AnalysisOutput(summary=summary_text, ...)`
receives the caller's `summary_text` argument unchanged — the 200-word
truncation inside `extract_financial_data_points` only rebinds that
function's local variable. -/
def storedSummary (summary_text : List Char) : List Char := summary_text

/-! ## The metric pattern scanner (`re.findall` on the two fixed shapes) -/

/-- The two value shapes occurring in `financial_patterns`:
`dollar` is `\$[\d,]+\.?\d*[BMK]?` (the capture), `scaled` is
`(\d+(?:,\d{3})*(?:\.\d{2})?)\s*(?:million|billion|thousand|M|B|K)`
(capture = the number, the scale word is consumed but not captured). -/
inductive VShape : Type
  | dollar : VShape
  | scaled : VShape
deriving DecidableEq, Repr

/-- A digit or comma, the class `[\d,]`. -/
def isDigComma (c : Char) : Bool := c.isDigit || c = ','

/-- `\.?` at the front: split off one dot if present. -/
def dotSplit (l : List Char) : List Char × List Char :=
  match l with
  | c :: t => if c = '.' then ([c], t) else ([], l)
  | [] => ([], [])

/-- `[BMK]?` under `re.IGNORECASE`: split off one scale letter if present. -/
def sufSplit (l : List Char) : List Char × List Char :=
  match l with
  | c :: t =>
    if c = 'B' ∨ c = 'M' ∨ c = 'K' ∨ c = 'b' ∨ c = 'm' ∨ c = 'k'
    then ([c], t) else ([], l)
  | [] => ([], [])

/-- Greedy `\$[\d,]+\.?\d*[BMK]?` at the front of the text; returns the
captured characters and the rest of the text after the match. -/
def matchDollar (l : List Char) : Option (List Char × List Char) :=
  match l with
  | [] => none
  | c :: cs =>
    if c = '$' then
      let ds := cs.takeWhile isDigComma
      let r1 := cs.dropWhile isDigComma
      if ds = [] then none
      else
        let dr := dotSplit r1
        let fs := dr.2.takeWhile Char.isDigit
        let r3 := dr.2.dropWhile Char.isDigit
        let sr := sufSplit r3
        some ('$' :: (ds ++ dr.1 ++ fs ++ sr.1), sr.2)
    else none

/-- Greedy `(?:,\d{3})*` at the front of the text. -/
def matchCommaGroups : List Char → List Char × List Char
  | a :: b :: c :: d :: t =>
    if a = ',' ∧ b.isDigit ∧ c.isDigit ∧ d.isDigit then
      let r := matchCommaGroups t
      (a :: b :: c :: d :: r.1, r.2)
    else ([], a :: b :: c :: d :: t)
  | l => ([], l)

/-- `(?:\.\d{2})?` at the front of the text. -/
def decSplit (l : List Char) : List Char × List Char :=
  match l with
  | a :: b :: c :: t =>
    if a = '.' ∧ b.isDigit ∧ c.isDigit then ([a, b, c], t) else ([], l)
  | _ => ([], l)

/-- `(?:million|billion|thousand|M|B|K)` under `re.IGNORECASE`, alternatives
tried in the source order; returns the rest of the text after the word. -/
def matchScaleWord (l : List Char) : Option (List Char) :=
  if isPrefixCI "million".data l then some (l.drop 7)
  else if isPrefixCI "billion".data l then some (l.drop 7)
  else if isPrefixCI "thousand".data l then some (l.drop 8)
  else
    match l with
    | c :: t =>
      if c.toLower = 'm' ∨ c.toLower = 'b' ∨ c.toLower = 'k' then some t
      else none
    | [] => none

/-- Greedy `(\d+(?:,\d{3})*(?:\.\d{2})?)\s*(?:million|billion|thousand|M|B|K)`
at the front of the text; returns the capture (the number) and the rest of
the text after the scale word. -/
def matchScaled (l : List Char) : Option (List Char × List Char) :=
  let ds := l.takeWhile Char.isDigit
  let r1 := l.dropWhile Char.isDigit
  if ds = [] then none
  else
    let gr := matchCommaGroups r1
    let dr := decSplit gr.2
    let r4 := dr.2.dropWhile pyIsSpace
    match matchScaleWord r4 with
    | some r5 => some (ds ++ gr.1 ++ dr.1, r5)
    | none => none

/-- Dispatch on the value shape. -/
def matchShape : VShape → List Char → Option (List Char × List Char)
  | VShape.dollar, l => matchDollar l
  | VShape.scaled, l => matchScaled l

/-- Lazy `.*?` followed by the value shape: try the value at each position,
expanding the dot-star one character at a time; `.` does not match `'\n'`
(`re.DOTALL` is off), so expansion stops at a newline. -/
def lazyValue (sh : VShape) : List Char → Option (List Char × List Char)
  | [] => none
  | c :: t =>
    match matchShape sh (c :: t) with
    | some r => some r
    | none => if c = '\n' then none else lazyValue sh t

/-- One pattern of `financial_patterns`: the label alternatives of the
non-capturing group (lowercase literals, matched case-insensitively) and
the value shape that follows the lazy dot-star. -/
structure MPat : Type where
  labels : List (List Char)
  shape : VShape
deriving DecidableEq, Repr

/-- Try the label alternatives in order at the front of the text; on failure
of the lazy-value search the engine backtracks to the next alternative,
exactly as `re` does. -/
def matchLabelsAt : List (List Char) → VShape → List Char → Option (List Char × List Char)
  | [], _, _ => none
  | lab :: rest, sh, cs =>
    if isPrefixCI lab cs then
      match lazyValue sh (cs.drop lab.length) with
      | some r => some r
      | none => matchLabelsAt rest sh cs
    else matchLabelsAt rest sh cs

/-- Match the full pattern anchored at the front of the text. -/
def matchPatAt (p : MPat) (l : List Char) : Option (List Char × List Char) :=
  matchLabelsAt p.labels p.shape l

/-- `re.findall`: scan left to right, emit the capture of each
non-overlapping match, resume after the end of the full match.  Fuel is the
text length plus one; every match consumes at least its nonempty label, so
this fuel is never exhausted. -/
def findallAux (p : MPat) : Nat → List Char → List (List Char)
  | 0, _ => []
  | _ + 1, [] => []
  | fuel + 1, c :: cs =>
    match matchPatAt p (c :: cs) with
    | some (cap, rest) => cap :: findallAux p fuel rest
    | none => findallAux p fuel cs

/-- `re.findall(pattern, text, re.IGNORECASE)` for one pattern. -/
def findall (p : MPat) (l : List Char) : List (List Char) :=
  findallAux p (l.length + 1) l

/-! ## The `financial_patterns` table (analysis_repository.py lines 45–62) -/

/-- Patterns for `"revenue"`. -/
def revenuePats : List MPat :=
  [⟨["revenue".data, "sales".data, "total revenue".data], VShape.dollar⟩,
   ⟨["revenue".data, "sales".data], VShape.scaled⟩]

/-- Patterns for `"operating_income"`. -/
def operatingIncomePats : List MPat :=
  [⟨["operating income".data, "operating profit".data, "ebit".data], VShape.dollar⟩,
   ⟨["operating income".data, "operating profit".data], VShape.scaled⟩]

/-- Patterns for `"net_income"`. -/
def netIncomePats : List MPat :=
  [⟨["net income".data, "net profit".data, "net earnings".data], VShape.dollar⟩,
   ⟨["net income".data, "net profit".data], VShape.scaled⟩]

/-- Patterns for `"cash"`. -/
def cashPats : List MPat :=
  [⟨["cash".data, "cash equivalents".data], VShape.dollar⟩,
   ⟨["cash".data, "cash equivalents".data], VShape.scaled⟩]

/-- The full table, in source order. -/
def financialPatterns : List (String × List MPat) :=
  [("revenue", revenuePats),
   ("operating_income", operatingIncomePats),
   ("net_income", netIncomePats),
   ("cash", cashPats)]

/-- Lines 65–70: for each metric, try the pattern variants in order and
keep the first capture of the first variant whose `findall` is nonempty
(`data_points["metrics"][metric_name] = matches[0]; break`). -/
def firstCapture : List MPat → List Char → Option (List Char)
  | [], _ => none
  | p :: ps, t =>
    match findall p t with
    | [] => firstCapture ps t
    | m :: _ => some m

/-- The metrics dict built by the pattern loop, as an insertion-ordered
association list (Python dicts preserve insertion order). -/
def extractMetrics (t : List Char) : List (String × List Char) :=
  financialPatterns.filterMap
    (fun np => (firstCapture np.2 t).map (fun v => (np.1, v)))

/-! ## The section-aware line scan (analysis_repository.py lines 72–121) -/

/-- The five finding categories. -/
inductive Sect : Type
  | insights : Sect
  | key_findings : Sect
  | financial_highlights : Sect
  | risks : Sect
  | opportunities : Sect
deriving DecidableEq, Repr

/-- The `data_points` dict (without the score key, which is added at the
end): the metrics mapping and the five category lists. -/
structure DataPoints : Type where
  metrics : List (String × List Char)
  insights : List (List Char)
  key_findings : List (List Char)
  financial_highlights : List (List Char)
  risks : List (List Char)
  opportunities : List (List Char)
deriving DecidableEq, Repr

/-- Read one category list. -/
def getCat (dp : DataPoints) : Sect → List (List Char)
  | Sect.insights => dp.insights
  | Sect.key_findings => dp.key_findings
  | Sect.financial_highlights => dp.financial_highlights
  | Sect.risks => dp.risks
  | Sect.opportunities => dp.opportunities

/-- Replace one category list. -/
def setCat (dp : DataPoints) : Sect → List (List Char) → DataPoints
  | Sect.insights, l => { dp with insights := l }
  | Sect.key_findings, l => { dp with key_findings := l }
  | Sect.financial_highlights, l => { dp with financial_highlights := l }
  | Sect.risks, l => { dp with risks := l }
  | Sect.opportunities, l => { dp with opportunities := l }

/-- `line.startswith('-') or line.startswith('•')`. -/
def startsBullet (l : List Char) : Bool :=
  match l with
  | c :: _ => c = '-' || c = '•'
  | [] => false

/-- The three case-sensitive section-exit markers of line 98. -/
def clearsSection (line : List Char) : Bool :=
  "INVESTMENT RECOMMENDATION".data.isPrefixOf line
    || "KEY FINANCIAL METRICS".data.isPrefixOf line
    || "GROWTH & CHANGES".data.isPrefixOf line

/-- Lines 106–115: the five-way `elif` chain appending the bullet content
(`content[:150]`) to the list selected by `current_section`, provided that
list holds fewer than 5 entries; with no current section nothing happens. -/
def bulletAppend (dp : DataPoints) (cur : Option Sect) (content : List Char) : DataPoints :=
  match cur with
  | some s =>
    if (getCat dp s).length < 5 then setCat dp s (getCat dp s ++ [content.take 150])
    else dp
  | none => dp

/-- The loop state of the line scan: `current_section` and `data_points`. -/
structure ScanState : Type where
  current : Option Sect
  dp : DataPoints
deriving DecidableEq, Repr

/-- The five recognised section-header substrings, in the order the `elif`
chain checks them, paired with the section each one selects. -/
def headerTable : List (List Char × Sect) :=
  [("total insights:".data, Sect.insights),
   ("key findings:".data, Sect.key_findings),
   ("financial highlights:".data, Sect.financial_highlights),
   ("risk factors:".data, Sect.risks),
   ("opportunities:".data, Sect.opportunities)]

/-- One iteration of the `for line in lines` loop, lines 76–121 of
analysis_repository.py, transcribed branch for branch (including the
`elif`-guarded secondary bullet branch of lines 117–121). -/
def lineStep (st : ScanState) (raw : List Char) : ScanState :=
  if pyStrip raw = [] ∨ (pyStrip raw).length < 5 then st
  else if isSub "total insights:".data (pyLower (pyStrip raw)) then
    { st with current := some Sect.insights }
  else if isSub "key findings:".data (pyLower (pyStrip raw)) then
    { st with current := some Sect.key_findings }
  else if isSub "financial highlights:".data (pyLower (pyStrip raw)) then
    { st with current := some Sect.financial_highlights }
  else if isSub "risk factors:".data (pyLower (pyStrip raw)) then
    { st with current := some Sect.risks }
  else if isSub "opportunities:".data (pyLower (pyStrip raw)) then
    { st with current := some Sect.opportunities }
  else if clearsSection (pyStrip raw) then { st with current := none }
  else if startsBullet (pyStrip raw) ∧ 15 < (pyStrip raw).length then
    (if 10 < (pyStrip ((pyStrip raw).drop 1)).length then
      { st with dp := bulletAppend st.dp st.current (pyStrip ((pyStrip raw).drop 1)) }
    else st)
  else if startsBullet (pyStrip raw) ∧ 20 < (pyStrip raw).length then
    (if (pyStrip ((pyStrip raw).drop 1)).any Char.isDigit ∧ st.dp.insights.length < 3 then
      { st with dp := (setCat st.dp Sect.insights (getCat st.dp Sect.insights ++ [(pyStrip ((pyStrip raw).drop 1)).take 100])) }
    else st)
  else st

/-- `lineStep` with the secondary bullet branch of lines 117–121 removed
(its `else` collapses into the surrounding `else`).  Claim C10 states the
two functions agree on every input. -/
def lineStepNoFallback (st : ScanState) (raw : List Char) : ScanState :=
  if pyStrip raw = [] ∨ (pyStrip raw).length < 5 then st
  else if isSub "total insights:".data (pyLower (pyStrip raw)) then
    { st with current := some Sect.insights }
  else if isSub "key findings:".data (pyLower (pyStrip raw)) then
    { st with current := some Sect.key_findings }
  else if isSub "financial highlights:".data (pyLower (pyStrip raw)) then
    { st with current := some Sect.financial_highlights }
  else if isSub "risk factors:".data (pyLower (pyStrip raw)) then
    { st with current := some Sect.risks }
  else if isSub "opportunities:".data (pyLower (pyStrip raw)) then
    { st with current := some Sect.opportunities }
  else if clearsSection (pyStrip raw) then { st with current := none }
  else if startsBullet (pyStrip raw) ∧ 15 < (pyStrip raw).length then
    (if 10 < (pyStrip ((pyStrip raw).drop 1)).length then
      { st with dp := bulletAppend st.dp st.current (pyStrip ((pyStrip raw).drop 1)) }
    else st)
  else st

/-- `data_points` as initialised on lines 35–42, after the metric loop of
lines 64–70 has filled the `metrics` key. -/
def initialDP (text : List Char) : DataPoints :=
  { metrics := extractMetrics text
    insights := []
    key_findings := []
    financial_highlights := []
    risks := []
    opportunities := [] }

/-- The whole section-aware pass: fold the line loop over
`summary_text.split('\n')` starting from `current_section = None`. -/
def sectionPass (text : List Char) : ScanState :=
  (pySplitLines text).foldl lineStep { current := none, dp := initialDP text }

/-- Line 124: `not any(data_points[key] for key in [the five categories])`. -/
def allFiveEmpty (dp : DataPoints) : Bool :=
  dp.insights.isEmpty && dp.key_findings.isEmpty && dp.financial_highlights.isEmpty
    && dp.risks.isEmpty && dp.opportunities.isEmpty

/-! ## The fallback pass (`_extract_insights_fallback`, lines 160–207) -/

/-- The `sections` dict of lines 164–170: category, then header spellings. -/
def fallbackHeaders : List (Sect × List (List Char)) :=
  [(Sect.insights, ["Total Insights:".data, "Insights:".data]),
   (Sect.key_findings, ["Key Findings:".data, "Findings:".data]),
   (Sect.financial_highlights, ["Financial Highlights:".data, "Highlights:".data]),
   (Sect.risks, ["Risk Factors:".data, "Risks:".data]),
   (Sect.opportunities, ["Opportunities:".data])]

/-- The header list of line 183 used to delimit the end of a section span. -/
def nextSectionHeaders : List (List Char) :=
  ["Total Insights:".data, "Key Findings:".data, "Financial Highlights:".data,
   "Risk Factors:".data, "Opportunities:".data, "Investment Recommendation:".data]

/-- `line.split(':', 1)[1]`: everything after the first colon. -/
def afterColon (l : List Char) : List Char :=
  (l.dropWhile (fun c => !(c = ':'))).drop 1

/-- One line of the fallback bullet scan, lines 192–202: bullet lines and
numbered `Risk n: ...` / `Opportunity n: ...` lines feed the current
fallback section. -/
def fallbackLineStep (s : Sect) (dp : DataPoints) (raw : List Char) : DataPoints :=
  if startsBullet (pyStrip raw) ∧ 15 < (pyStrip raw).length then
    (if 10 < (pyStrip ((pyStrip raw).drop 1)).length ∧ (getCat dp s).length < 5 then
      setCat dp s (getCat dp s ++ [(pyStrip ((pyStrip raw).drop 1)).take 150])
    else dp)
  else if ("Risk ".data.isPrefixOf (pyStrip raw) ∨ "Opportunity ".data.isPrefixOf (pyStrip raw))
      ∧ (pyStrip raw).contains ':' then
    (if 10 < (pyStrip (afterColon (pyStrip raw))).length ∧ (getCat dp s).length < 5 then
      setCat dp s (getCat dp s ++ [(pyStrip (afterColon (pyStrip raw))).take 150])
    else dp)
  else dp

/-- Lines 173–202 for one header spelling: if the header occurs
(case-insensitively) in the text, slice from after it to the nearest
following recognised header (or the end of text) and scan that slice's
lines. -/
def fallbackForHeader (text : List Char) (s : Sect) (h : List Char) (dp : DataPoints) : DataPoints :=
  match idxOfSub (pyLower h) (pyLower text) with
  | none => dp
  | some idx =>
    let content := text.drop (idx + h.length)
    let nextIdx := nextSectionHeaders.foldl
      (fun m oh =>
        match idxOfSub (pyLower oh) (pyLower content) with
        | some i => if i < m then i else m
        | none => m)
      content.length
    (pySplitLines (content.take nextIdx)).foldl (fallbackLineStep s) dp

/-- The whole fallback pass over all sections and header spellings. -/
def fallbackPass (text : List Char) (dp : DataPoints) : DataPoints :=
  fallbackHeaders.foldl
    (fun acc sh => sh.2.foldl (fun acc2 h => fallbackForHeader text sh.1 h acc2) acc)
    dp

/-- Lines 123–125: run the fallback only when the section-aware pass left
every one of the five category lists empty. -/
def withFallback (text : List Char) (dp : DataPoints) : DataPoints :=
  if allFiveEmpty dp then fallbackPass text dp else dp

/-! ## Quality score and the full pipeline -/

/-- Lines 128–142: the completeness score before clamping. -/
def scoreOf (dp : DataPoints) : ℚ :=
  (if dp.metrics ≠ [] then 0.2 else 0)
    + (if dp.insights ≠ [] then 0.15 else 0)
    + (if dp.key_findings ≠ [] then 0.15 else 0)
    + (if dp.financial_highlights ≠ [] then 0.15 else 0)
    + (if dp.risks ≠ [] then 0.15 else 0)
    + (if dp.opportunities ≠ [] then 0.15 else 0)
    + (if dp.insights ≠ [] ∧ dp.key_findings ≠ [] ∧ dp.financial_highlights ≠ []
          ∧ dp.risks ≠ [] ∧ dp.opportunities ≠ [] then 0.05 else 0)

/-- Python's two-argument `min`, written out so that it evaluates by
kernel reduction on concrete rationals. -/
def pyMin (a b : ℚ) : ℚ :=
  if a ≤ b then a else b

/-- The structure returned by `extract_financial_data_points`. -/
structure ExtractResult : Type where
  metrics : List (String × List Char)
  insights : List (List Char)
  key_findings : List (List Char)
  financial_highlights : List (List Char)
  risks : List (List Char)
  opportunities : List (List Char)
  extraction_quality_score : ℚ
deriving DecidableEq, Repr

/-- The all-empty result returned from the `except` branch, lines 150–158. -/
def emptyResult : ExtractResult :=
  { metrics := []
    insights := []
    key_findings := []
    financial_highlights := []
    risks := []
    opportunities := []
    extraction_quality_score := 0 }

/-- The `try` block of `extract_financial_data_points`, lines 30–146: word
cap, metric loop, line scan, conditional fallback, clamped score. -/
def extractBody (summary_text : List Char) : ExtractResult :=
  let text := scannedText summary_text
  let dp := withFallback text (sectionPass text).dp
  { metrics := dp.metrics
    insights := dp.insights
    key_findings := dp.key_findings
    financial_highlights := dp.financial_highlights
    risks := dp.risks
    opportunities := dp.opportunities
    extraction_quality_score := pyMin (scoreOf dp) 1 }

/-- The `try ... except Exception: return all-empty` wrapper: whatever the
body does on the input, an exceptional outcome is converted to the
all-empty zero-score structure, and a normal outcome is returned as is.
The wrapper itself is total: no exception reaches the caller. -/
def extractSafe {E : Type} (body : List Char → Except E ExtractResult)
    (summary_text : List Char) : ExtractResult :=
  match body summary_text with
  | Except.ok r => r
  | Except.error _ => emptyResult

/-- `AnalysisRepository.extract_financial_data_points`: the `try` block is
pure in the embedding, so its `Except` outcome is always `ok`. -/
def extract_financial_data_points (summary_text : List Char) : ExtractResult :=
  extractSafe (fun t => (Except.ok (extractBody t) : Except Unit ExtractResult)) summary_text

/-- The final dedup-and-cap step of the user-service variant
(`UserService.extract_financial_data_points`, user.py line 209):
`data_points[key] = list(set(data_points[key]))[:5]`.  The set conversion
is modelled as first-occurrence deduplication: CPython's set iteration
order is unspecified, and the properties claimed of this step
(duplicate-freeness, cardinality) are order-independent. -/
def userDedupCap (l : List (List Char)) : List (List Char) :=
  l.dedup.take 5

/-! ## Shared lemmas -/

/-- The unclamped completeness score is a sum of nonnegative addends. -/
theorem scoreOf_nonneg (dp : DataPoints) : 0 ≤ scoreOf dp := by
  unfold scoreOf
  split_ifs <;> norm_num

/-- `pyMin` is bounded by its right argument. -/
theorem pyMin_le_right (a b : ℚ) : pyMin a b ≤ b := by
  unfold pyMin
  split_ifs with h
  · exact h
  · exact le_refl b

/-- `pyMin` of two nonnegative rationals is nonnegative. -/
theorem pyMin_nonneg (a b : ℚ) (ha : 0 ≤ a) (hb : 0 ≤ b) : 0 ≤ pyMin a b := by
  unfold pyMin
  split_ifs
  · exact ha
  · exact hb

/-- The all-empty `data_points` record. -/
def emptyDP : DataPoints :=
  { metrics := []
    insights := []
    key_findings := []
    financial_highlights := []
    risks := []
    opportunities := [] }

/-- The completeness score of the all-empty record is zero. -/
theorem scoreOf_emptyDP : scoreOf emptyDP = 0 := by
  norm_num [scoreOf, emptyDP]

/-- Evaluating the pipeline on the empty string yields the all-empty
zero-score structure. -/
theorem extract_empty_input_eval :
    extract_financial_data_points "".data = emptyResult := by
  have hdp : withFallback (scannedText "".data) (sectionPass (scannedText "".data)).dp
      = emptyDP := by decide
  show extractBody "".data = emptyResult
  simp only [extractBody]
  rw [hdp, scoreOf_emptyDP]
  norm_num [emptyDP, emptyResult, pyMin]

/-! ## C1: exception handling -/

/-- C1.  For every input text, if the extraction body raises (its `Except`
outcome is an error), `extract_financial_data_points`'s wrapper returns the
all-empty structure — empty metrics mapping, all five category lists empty,
score `0.0` — and, being a total function, never propagates the exception
to its caller. -/
theorem extract_empty_on_exception {E : Type}
    (body : List Char → Except E ExtractResult) (t : List Char) (e : E)
    (h : body t = Except.error e) :
    extractSafe body t = emptyResult ∧
    (extractSafe body t).metrics = [] ∧
    (extractSafe body t).insights = [] ∧
    (extractSafe body t).key_findings = [] ∧
    (extractSafe body t).financial_highlights = [] ∧
    (extractSafe body t).risks = [] ∧
    (extractSafe body t).opportunities = [] ∧
    (extractSafe body t).extraction_quality_score = 0 := by
  simp [extractSafe, h, emptyResult]

/-- Witness for C1 at a concrete erroring body and input. -/
theorem extract_empty_on_exception_witness :
    extractSafe (fun _ => (Except.error () : Except Unit ExtractResult)) [] = emptyResult ∧
    (extractSafe (fun _ => (Except.error () : Except Unit ExtractResult)) []).metrics = [] ∧
    (extractSafe (fun _ => (Except.error () : Except Unit ExtractResult)) []).insights = [] ∧
    (extractSafe (fun _ => (Except.error () : Except Unit ExtractResult)) []).key_findings = [] ∧
    (extractSafe (fun _ => (Except.error () : Except Unit ExtractResult)) []).financial_highlights = [] ∧
    (extractSafe (fun _ => (Except.error () : Except Unit ExtractResult)) []).risks = [] ∧
    (extractSafe (fun _ => (Except.error () : Except Unit ExtractResult)) []).opportunities = [] ∧
    (extractSafe (fun _ => (Except.error () : Except Unit ExtractResult)) []).extraction_quality_score = 0 :=
  extract_empty_on_exception (fun _ => Except.error ()) [] () rfl

/-! ## C2: score bounds and the empty input -/

/-- C2.  For every input text the extraction quality score lies in
`[0, 1]`, and the empty string input yields exactly the all-empty
structure with score `0.0` (the embedding is a total function, so no
exception can be raised). -/
theorem score_within_unit_and_empty_input :
    (∀ t : List Char,
      0 ≤ (extract_financial_data_points t).extraction_quality_score ∧
      (extract_financial_data_points t).extraction_quality_score ≤ 1)
    ∧ extract_financial_data_points "".data = emptyResult := by
  refine ⟨fun t => ?_, extract_empty_input_eval⟩
  have h : (extract_financial_data_points t).extraction_quality_score
      = pyMin (scoreOf (withFallback (scannedText t) (sectionPass (scannedText t)).dp)) 1 := rfl
  rw [h]
  exact ⟨pyMin_nonneg _ _ (scoreOf_nonneg _) (by norm_num), pyMin_le_right _ _⟩

/-- Witness for C2 at a concrete input. -/
theorem score_within_unit_witness :
    0 ≤ (extract_financial_data_points "Revenue: $5M".data).extraction_quality_score ∧
    (extract_financial_data_points "Revenue: $5M".data).extraction_quality_score ≤ 1 :=
  score_within_unit_and_empty_input.1 "Revenue: $5M".data

/-! ## C3: the 200-word cap does not reach the stored summary -/

/-- A 250-word report. -/
def c3Input : List Char := joinSpace (List.replicate 250 ['w'])

/-- C3 (divergence witness).  For the 250-word input, the summary stored by
`create_analysis_result` is the untruncated caller text: it still counts
250 words (not 200) and does not end with the truncation marker, while the
text the metric and finding passes scan is the truncated text — the exact
opposite of the claimed split. -/
theorem stored_summary_not_capped :
    (pyWords (storedSummary c3Input)).length = 250 ∧
    200 < (pyWords (storedSummary c3Input)).length ∧
    ¬ truncMarker <:+ storedSummary c3Input ∧
    scannedText c3Input ≠ storedSummary c3Input ∧
    truncMarker <:+ scannedText c3Input := by
  refine ⟨by decide, by decide, by decide, by decide, ?_⟩
  exact ⟨joinSpace ((pyWords c3Input).take 200), by decide⟩

/-! ## C7: the fallback pass runs iff the section pass found nothing -/

/-- The five category lists of a `DataPoints` record, in order. -/
def dpLists (dp : DataPoints) : List (List (List Char)) :=
  [dp.insights, dp.key_findings, dp.financial_highlights, dp.risks, dp.opportunities]

/-- The five category lists of an `ExtractResult`, in order. -/
def resLists (r : ExtractResult) : List (List (List Char)) :=
  [r.insights, r.key_findings, r.financial_highlights, r.risks, r.opportunities]

/-- C7.  The fallback pass is consulted exactly when the section-aware pass
produced zero findings across all five categories: if any category is
nonempty after the section pass, the returned lists are the section pass's
lists unchanged (the fallback's header-slicing and numbered-item rules
contribute nothing); if all five are empty, the returned lists are the
fallback pass's lists. -/
theorem fallback_triggered_iff_no_findings (t : List Char) :
    (allFiveEmpty (sectionPass (scannedText t)).dp = false →
      resLists (extract_financial_data_points t) =
        dpLists (sectionPass (scannedText t)).dp)
    ∧ (allFiveEmpty (sectionPass (scannedText t)).dp = true →
      resLists (extract_financial_data_points t) =
        dpLists (fallbackPass (scannedText t) (sectionPass (scannedText t)).dp)) := by
  constructor <;> intro h <;>
    simp [extract_financial_data_points, extractSafe, extractBody, withFallback, h,
      resLists, dpLists]

/-- Witness for C7: a report whose section pass finds a key finding, so the
returned lists are the section pass's lists. -/
theorem fallback_triggered_iff_no_findings_witness :
    (resLists (extract_financial_data_points "Key Findings:\n- Net income rose to $300M this quarter".data) =
      dpLists (sectionPass (scannedText "Key Findings:\n- Net income rose to $300M this quarter".data)).dp)
    ∧ allFiveEmpty (sectionPass (scannedText "Key Findings:\n- Net income rose to $300M this quarter".data)).dp = false :=
  ⟨(fallback_triggered_iff_no_findings "Key Findings:\n- Net income rose to $300M this quarter".data).1 (by decide),
   by decide⟩

/-! ## C8: deduplication -/

/-- A report whose risk section repeats a bullet verbatim. -/
def c8Input : List Char :=
  "Risk Factors:\n- Currency volatility remains elevated\n- Currency volatility remains elevated".data

/-- C8 (counterexample).  The repository implementation applies no
deduplication: a repeated bullet is emitted twice, so its output list is
not duplicate-free. -/
theorem risks_list_repeats :
    (extract_financial_data_points c8Input).risks.length = 2 ∧
    ¬ (extract_financial_data_points c8Input).risks.Nodup := by
  constructor <;> decide

/-- C8 (amended).  The deduplication the claim describes lives in the
user-service variant only: its final cleanup `list(set(xs))[:5]` returns a
duplicate-free list for every input list. -/
theorem user_cleanup_nodup (l : List (List Char)) : (userDedupCap l).Nodup :=
  List.Nodup.sublist (List.take_sublist 5 l.dedup) l.nodup_dedup

/-- Witness for the amended C8 at a concrete list with a repeat. -/
theorem user_cleanup_nodup_witness :
    (userDedupCap ["aa".data, "aa".data, "bb".data]).Nodup :=
  user_cleanup_nodup ["aa".data, "aa".data, "bb".data]

/-! ## C6: length and cardinality bounds on the category lists -/

/-- Bounds on one category list as the repository implementation enforces
them: at most 5 entries, each at most 150 characters. -/
def catOK (l : List (List Char)) : Prop :=
  l.length ≤ 5 ∧ ∀ e ∈ l, e.length ≤ 150

/-- Bounds on all five category lists. -/
def dpOK (dp : DataPoints) : Prop :=
  ∀ s : Sect, catOK (getCat dp s)

/-- Reading back after writing a category. -/
theorem getCat_setCat (dp : DataPoints) (s s' : Sect) (l : List (List Char)) :
    getCat (setCat dp s l) s' = if s' = s then l else getCat dp s' := by
  cases s <;> cases s' <;> simp [getCat, setCat]

/-- Writing a category leaves the metrics untouched. -/
theorem setCat_metrics (dp : DataPoints) (s : Sect) (l : List (List Char)) :
    (setCat dp s l).metrics = dp.metrics := by
  cases s <;> rfl

/-- Appending one short entry to a below-cap list keeps the bounds. -/
theorem catOK_append (l : List (List Char)) (c : List Char)
    (hl : catOK l) (hlen : l.length < 5) (hc : c.length ≤ 150) :
    catOK (l ++ [c]) := by
  constructor
  · simp only [List.length_append, List.length_singleton]
    omega
  · intro e he
    rcases List.mem_append.mp he with h | h
    · exact hl.2 e h
    · simp only [List.mem_singleton] at h
      rw [h]
      exact hc

/-- A `take n` is at most `n` long. -/
theorem take_length_le (n : Nat) (c : List Char) : (c.take n).length ≤ n := by
  simp only [List.length_take]
  omega

/-- Writing a bounded list into a bounded record keeps the bounds. -/
theorem dpOK_setCat (dp : DataPoints) (s : Sect) (l : List (List Char))
    (hdp : dpOK dp) (hl : catOK l) : dpOK (setCat dp s l) := by
  intro s'
  rw [getCat_setCat]
  split_ifs with h
  · exact hl
  · exact hdp s'

/-- The bullet-append step keeps the bounds. -/
theorem dpOK_bulletAppend (dp : DataPoints) (cur : Option Sect) (content : List Char)
    (hdp : dpOK dp) : dpOK (bulletAppend dp cur content) := by
  cases cur with
  | none => exact hdp
  | some s =>
    show dpOK (if (getCat dp s).length < 5
      then setCat dp s (getCat dp s ++ [content.take 150]) else dp)
    split_ifs with h
    · exact dpOK_setCat dp s _ hdp
        (catOK_append _ _ (hdp s) h (le_trans (take_length_le 150 content) (by norm_num)))
    · exact hdp

/-- One section-scan line keeps the bounds. -/
theorem dpOK_lineStep (st : ScanState) (raw : List Char)
    (h : dpOK st.dp) : dpOK (lineStep st raw).dp := by
  unfold lineStep
  repeat' split
  all_goals try exact h
  · exact dpOK_bulletAppend _ _ _ h
  · rename_i h9 h11
    exact dpOK_setCat _ _ _ h
      (catOK_append _ _ (h Sect.insights)
        (by have h3 := h11.2; simp only [getCat]; omega)
        (le_trans (take_length_le 100 _) (by norm_num)))

/-- One fallback line keeps the bounds. -/
theorem dpOK_fallbackLineStep (s : Sect) (dp : DataPoints) (raw : List Char)
    (h : dpOK dp) : dpOK (fallbackLineStep s dp raw) := by
  unfold fallbackLineStep
  repeat' split
  all_goals try exact h
  all_goals
    rename_i hg
  all_goals
    exact dpOK_setCat _ _ _ h
      (catOK_append _ _ (h s) hg.2 (le_trans (take_length_le 150 _) (by norm_num)))

/-- Property preservation through a left fold. -/
theorem foldl_preserve {α β : Type} (P : α → Prop) (f : α → β → α)
    (hf : ∀ a b, P a → P (f a b)) :
    ∀ (l : List β) (a : α), P a → P (l.foldl f a) := by
  intro l
  induction l with
  | nil => intro a ha; exact ha
  | cons b bs ih =>
    intro a ha
    rw [List.foldl_cons]
    exact ih (f a b) (hf a b ha)

/-- The initial `data_points` record satisfies the bounds. -/
theorem dpOK_initial (text : List Char) : dpOK (initialDP text) := by
  intro s
  cases s <;> exact ⟨by simp [initialDP, getCat], by simp [initialDP, getCat]⟩

/-- The section pass satisfies the bounds. -/
theorem dpOK_sectionPass (text : List Char) : dpOK (sectionPass text).dp := by
  have := foldl_preserve (fun st : ScanState => dpOK st.dp) lineStep
    (fun a b ha => dpOK_lineStep a b ha) (pySplitLines text)
    { current := none, dp := initialDP text } (dpOK_initial text)
  exact this

/-- The fallback pass keeps the bounds. -/
theorem dpOK_fallbackPass (text : List Char) (dp : DataPoints)
    (h : dpOK dp) : dpOK (fallbackPass text dp) := by
  unfold fallbackPass
  refine foldl_preserve (fun dp : DataPoints => dpOK dp)
    _ (fun a b ha => ?_) fallbackHeaders dp h
  refine foldl_preserve (fun dp : DataPoints => dpOK dp)
    _ (fun a2 b2 ha2 => ?_) b.2 a ha
  unfold fallbackForHeader
  cases idxOfSub (pyLower b2) (pyLower text) with
  | none => exact ha2
  | some idx =>
    exact foldl_preserve (fun dp : DataPoints => dpOK dp) _
      (fun a3 b3 ha3 => dpOK_fallbackLineStep b.1 a3 b3 ha3) _ a2 ha2

/-- The final record of the pipeline satisfies the bounds. -/
theorem dpOK_final (t : List Char) :
    dpOK (withFallback (scannedText t) (sectionPass (scannedText t)).dp) := by
  unfold withFallback
  split_ifs with h
  · exact dpOK_fallbackPass _ _ (dpOK_sectionPass _)
  · exact dpOK_sectionPass _

/-- C6 (amended).  For every input, each of the five category lists holds
at most 5 entries, and every entry is at most 150 characters long — 150,
not 120, is the per-entry cap the repository implementation enforces on
`financial_highlights`, `risks` and `opportunities` as well. -/
theorem category_lists_bounded (t : List Char) :
    catOK (extract_financial_data_points t).insights
    ∧ catOK (extract_financial_data_points t).key_findings
    ∧ catOK (extract_financial_data_points t).financial_highlights
    ∧ catOK (extract_financial_data_points t).risks
    ∧ catOK (extract_financial_data_points t).opportunities := by
  have h := dpOK_final t
  exact ⟨h Sect.insights, h Sect.key_findings, h Sect.financial_highlights,
    h Sect.risks, h Sect.opportunities⟩

/-- Witness for the amended C6 at a concrete input. -/
theorem category_lists_bounded_witness :
    catOK (extract_financial_data_points "Revenue: $5M".data).insights :=
  (category_lists_bounded "Revenue: $5M".data).1

/-- A report with a 140-character financial-highlight bullet. -/
def c6Input : List Char :=
  "Financial Highlights:\n- ".data ++ List.replicate 140 'x'

/-- C6 (counterexample).  The claimed 120-character cap for
`financial_highlights` does not hold: the repository implementation
truncates to 150 characters, so a 140-character bullet is emitted whole. -/
theorem kept_highlight_longer_than_120 :
    (extract_financial_data_points c6Input).financial_highlights
      = [List.replicate 140 'x'] ∧
    120 < (List.replicate 140 'x').length := by
  constructor <;> decide

/-! ## C10: the secondary bullet branch is dead code -/

/-- C10.  Removing the secondary bullet branch (lines 117–121) does not
change the scan — any line passing its `len(line) > 20` guard already
passed the primary branch's `len(line) > 15` guard — and a bullet line
arriving while no section is current is never appended to any category
list. -/
theorem secondary_bullet_branch_dead (st : ScanState) (raw : List Char) :
    lineStep st raw = lineStepNoFallback st raw
    ∧ (st.current = none → startsBullet (pyStrip raw) = true →
        (lineStep st raw).dp = st.dp) := by
  constructor
  · unfold lineStep lineStepNoFallback
    by_cases h1 : pyStrip raw = [] ∨ (pyStrip raw).length < 5
    · rw [if_pos h1, if_pos h1]
    rw [if_neg h1, if_neg h1]
    by_cases h2 : isSub "total insights:".data (pyLower (pyStrip raw)) = true
    · rw [if_pos h2, if_pos h2]
    rw [if_neg h2, if_neg h2]
    by_cases h3 : isSub "key findings:".data (pyLower (pyStrip raw)) = true
    · rw [if_pos h3, if_pos h3]
    rw [if_neg h3, if_neg h3]
    by_cases h4 : isSub "financial highlights:".data (pyLower (pyStrip raw)) = true
    · rw [if_pos h4, if_pos h4]
    rw [if_neg h4, if_neg h4]
    by_cases h5 : isSub "risk factors:".data (pyLower (pyStrip raw)) = true
    · rw [if_pos h5, if_pos h5]
    rw [if_neg h5, if_neg h5]
    by_cases h6 : isSub "opportunities:".data (pyLower (pyStrip raw)) = true
    · rw [if_pos h6, if_pos h6]
    rw [if_neg h6, if_neg h6]
    by_cases h7 : clearsSection (pyStrip raw) = true
    · rw [if_pos h7, if_pos h7]
    rw [if_neg h7, if_neg h7]
    by_cases h8 : startsBullet (pyStrip raw) = true ∧ 15 < (pyStrip raw).length
    · rw [if_pos h8, if_pos h8]
    rw [if_neg h8, if_neg h8]
    by_cases h9 : startsBullet (pyStrip raw) = true ∧ 20 < (pyStrip raw).length
    · exact absurd ⟨h9.1, by omega⟩ h8
    rw [if_neg h9]
  · intro hc hb
    unfold lineStep
    by_cases h1 : pyStrip raw = [] ∨ (pyStrip raw).length < 5
    · rw [if_pos h1]
    rw [if_neg h1]
    by_cases h2 : isSub "total insights:".data (pyLower (pyStrip raw)) = true
    · rw [if_pos h2]
    rw [if_neg h2]
    by_cases h3 : isSub "key findings:".data (pyLower (pyStrip raw)) = true
    · rw [if_pos h3]
    rw [if_neg h3]
    by_cases h4 : isSub "financial highlights:".data (pyLower (pyStrip raw)) = true
    · rw [if_pos h4]
    rw [if_neg h4]
    by_cases h5 : isSub "risk factors:".data (pyLower (pyStrip raw)) = true
    · rw [if_pos h5]
    rw [if_neg h5]
    by_cases h6 : isSub "opportunities:".data (pyLower (pyStrip raw)) = true
    · rw [if_pos h6]
    rw [if_neg h6]
    by_cases h7 : clearsSection (pyStrip raw) = true
    · rw [if_pos h7]
    rw [if_neg h7]
    by_cases h8 : startsBullet (pyStrip raw) = true ∧ 15 < (pyStrip raw).length
    · rw [if_pos h8]
      by_cases h10 : 10 < (pyStrip ((pyStrip raw).drop 1)).length
      · rw [if_pos h10]
        show (bulletAppend st.dp st.current (pyStrip ((pyStrip raw).drop 1))) = st.dp
        rw [hc]
        rfl
      · rw [if_neg h10]
    rw [if_neg h8]
    by_cases h9 : startsBullet (pyStrip raw) = true ∧ 20 < (pyStrip raw).length
    · exact absurd ⟨hb, by omega⟩ h8
    rw [if_neg h9]

/-- Witness for C10 at a concrete state and bullet line outside sections. -/
theorem secondary_bullet_branch_dead_witness :
    lineStep { current := none, dp := emptyDP } "- 1234567890 123456789 xy".data
      = lineStepNoFallback { current := none, dp := emptyDP } "- 1234567890 123456789 xy".data
    ∧ (lineStep { current := none, dp := emptyDP } "- 1234567890 123456789 xy".data).dp
      = ({ current := none, dp := emptyDP } : ScanState).dp :=
  ⟨(secondary_bullet_branch_dead { current := none, dp := emptyDP } "- 1234567890 123456789 xy".data).1,
   (secondary_bullet_branch_dead { current := none, dp := emptyDP } "- 1234567890 123456789 xy".data).2 rfl (by decide)⟩

/-! ## C5: the section-aware line scan rules -/

/-- A Boolean prefix implies a length bound. -/
theorem isPrefixOf_len : ∀ (p l : List Char), p.isPrefixOf l = true → p.length ≤ l.length := by
  intro p
  induction p with
  | nil => intro l _; simp
  | cons a as ih =>
    intro l h
    cases l with
    | nil => simp [List.isPrefixOf] at h
    | cons b bs =>
      simp only [List.isPrefixOf, Bool.and_eq_true] at h
      have := ih bs h.2
      simp only [List.length_cons]
      omega

/-- Substring containment implies a length bound. -/
theorem isSub_len (p : List Char) : ∀ (l : List Char), isSub p l = true → p.length ≤ l.length := by
  intro l
  induction l with
  | nil =>
    intro h
    simp only [isSub] at h
    exact isPrefixOf_len _ _ h
  | cons c cs ih =>
    intro h
    simp only [isSub, Bool.or_eq_true] at h
    rcases h with h | h
    · exact isPrefixOf_len _ _ h
    · have := ih h
      simp only [List.length_cons]
      omega

/-- Lowering does not change the length. -/
theorem pyLower_length (l : List Char) : (pyLower l).length = l.length := by
  simp [pyLower]

/-- A line containing a header of length at least 5 is not skipped by the
`not line or len(line) < 5` guard. -/
theorem isSub_guard (raw pat : List Char) (h5 : 5 ≤ pat.length)
    (h : isSub pat (pyLower (pyStrip raw)) = true) :
    ¬ (pyStrip raw = [] ∨ (pyStrip raw).length < 5) := by
  have hl := isSub_len pat _ h
  rw [pyLower_length] at hl
  intro hor
  rcases hor with he | hlt
  · rw [he] at hl
    simp only [List.length_nil] at hl
    omega
  · omega

/-- A line passing one of the clear markers is not skipped by the guard. -/
theorem clears_guard (l : List Char) (h : clearsSection l = true) :
    ¬ (l = [] ∨ l.length < 5) := by
  simp only [clearsSection, Bool.or_eq_true] at h
  have hlen : 16 ≤ l.length := by
    rcases h with (h | h) | h <;>
      (have hp := isPrefixOf_len _ _ h
       simp only [List.length_cons, List.length_nil] at hp
       omega)
  intro hor
  rcases hor with he | hlt
  · rw [he] at hlen
    simp only [List.length_nil] at hlen
    omega
  · omega

/-- A bullet line never matches a clear marker (those start with `I`, `K`
or `G`, not `-` or `•`). -/
theorem bullet_not_clears (l : List Char) (hb : startsBullet l = true) :
    clearsSection l = false := by
  cases l with
  | nil => simp [startsBullet] at hb
  | cons c t =>
    simp only [startsBullet, Bool.or_eq_true, decide_eq_true_eq] at hb
    have e1 : "INVESTMENT RECOMMENDATION".data = 'I' :: "NVESTMENT RECOMMENDATION".data := rfl
    have e2 : "KEY FINANCIAL METRICS".data = 'K' :: "EY FINANCIAL METRICS".data := rfl
    have e3 : "GROWTH & CHANGES".data = 'G' :: "ROWTH & CHANGES".data := rfl
    rcases hb with hb | hb <;> subst hb
    · simp [clearsSection, e1, e2, e3, List.isPrefixOf,
        (by decide : ('I' == '-') = false),
        (by decide : ('K' == '-') = false),
        (by decide : ('G' == '-') = false)]
    · simp [clearsSection, e1, e2, e3, List.isPrefixOf,
        (by decide : ('I' == '•') = false),
        (by decide : ('K' == '•') = false),
        (by decide : ('G' == '•') = false)]

/-- C5.  The section-aware pass, line by line: (1)–(5) a line containing a
recognised case-insensitive header substring (checked in the `elif` order
of the source) sets the current section and is itself discarded — the
category lists are unchanged; (6) a line starting with one of the three
capitalised markers (and containing no header substring) clears the
current section; (7) while a section `s` is current, a line beginning with
`-` or `•` of length greater than 15 (and containing no header substring)
has the marker stripped, and the remaining content is appended (truncated
to 150 characters) to section `s`'s list exactly when the content is
longer than 10 characters and the list holds fewer than 5 entries;
otherwise the state is unchanged. -/
theorem section_scan_line_behavior (st : ScanState) (raw : List Char) :
    (isSub "total insights:".data (pyLower (pyStrip raw)) = true →
      lineStep st raw = { st with current := some Sect.insights })
    ∧ (isSub "total insights:".data (pyLower (pyStrip raw)) = false →
       isSub "key findings:".data (pyLower (pyStrip raw)) = true →
      lineStep st raw = { st with current := some Sect.key_findings })
    ∧ (isSub "total insights:".data (pyLower (pyStrip raw)) = false →
       isSub "key findings:".data (pyLower (pyStrip raw)) = false →
       isSub "financial highlights:".data (pyLower (pyStrip raw)) = true →
      lineStep st raw = { st with current := some Sect.financial_highlights })
    ∧ (isSub "total insights:".data (pyLower (pyStrip raw)) = false →
       isSub "key findings:".data (pyLower (pyStrip raw)) = false →
       isSub "financial highlights:".data (pyLower (pyStrip raw)) = false →
       isSub "risk factors:".data (pyLower (pyStrip raw)) = true →
      lineStep st raw = { st with current := some Sect.risks })
    ∧ (isSub "total insights:".data (pyLower (pyStrip raw)) = false →
       isSub "key findings:".data (pyLower (pyStrip raw)) = false →
       isSub "financial highlights:".data (pyLower (pyStrip raw)) = false →
       isSub "risk factors:".data (pyLower (pyStrip raw)) = false →
       isSub "opportunities:".data (pyLower (pyStrip raw)) = true →
      lineStep st raw = { st with current := some Sect.opportunities })
    ∧ (isSub "total insights:".data (pyLower (pyStrip raw)) = false →
       isSub "key findings:".data (pyLower (pyStrip raw)) = false →
       isSub "financial highlights:".data (pyLower (pyStrip raw)) = false →
       isSub "risk factors:".data (pyLower (pyStrip raw)) = false →
       isSub "opportunities:".data (pyLower (pyStrip raw)) = false →
       clearsSection (pyStrip raw) = true →
      lineStep st raw = { st with current := none })
    ∧ (∀ s : Sect, st.current = some s →
       isSub "total insights:".data (pyLower (pyStrip raw)) = false →
       isSub "key findings:".data (pyLower (pyStrip raw)) = false →
       isSub "financial highlights:".data (pyLower (pyStrip raw)) = false →
       isSub "risk factors:".data (pyLower (pyStrip raw)) = false →
       isSub "opportunities:".data (pyLower (pyStrip raw)) = false →
       startsBullet (pyStrip raw) = true →
       15 < (pyStrip raw).length →
       ((10 < (pyStrip ((pyStrip raw).drop 1)).length ∧ (getCat st.dp s).length < 5 →
          lineStep st raw = { st with dp :=
            (setCat st.dp s (getCat st.dp s ++ [(pyStrip ((pyStrip raw).drop 1)).take 150])) })
        ∧ (¬ (10 < (pyStrip ((pyStrip raw).drop 1)).length ∧ (getCat st.dp s).length < 5) →
          lineStep st raw = st))) := by
  refine ⟨?_, ?_, ?_, ?_, ?_, ?_, ?_⟩
  · intro hA
    unfold lineStep
    rw [if_neg (isSub_guard raw _ (by decide) hA), if_pos hA]
  · intro hA hB
    unfold lineStep
    rw [if_neg (isSub_guard raw _ (by decide) hB), if_neg (by simp [hA]), if_pos hB]
  · intro hA hB hC
    unfold lineStep
    rw [if_neg (isSub_guard raw _ (by decide) hC), if_neg (by simp [hA]),
      if_neg (by simp [hB]), if_pos hC]
  · intro hA hB hC hD
    unfold lineStep
    rw [if_neg (isSub_guard raw _ (by decide) hD), if_neg (by simp [hA]),
      if_neg (by simp [hB]), if_neg (by simp [hC]), if_pos hD]
  · intro hA hB hC hD hE
    unfold lineStep
    rw [if_neg (isSub_guard raw _ (by decide) hE), if_neg (by simp [hA]),
      if_neg (by simp [hB]), if_neg (by simp [hC]), if_neg (by simp [hD]), if_pos hE]
  · intro hA hB hC hD hE hF
    unfold lineStep
    rw [if_neg (clears_guard _ hF), if_neg (by simp [hA]), if_neg (by simp [hB]),
      if_neg (by simp [hC]), if_neg (by simp [hD]), if_neg (by simp [hE]), if_pos hF]
  · intro s hs hA hB hC hD hE hb hlen
    have hg : ¬ (pyStrip raw = [] ∨ (pyStrip raw).length < 5) := by
      intro hor
      rcases hor with he | hlt
      · rw [he] at hlen
        simp only [List.length_nil] at hlen
        omega
      · omega
    have hclears : ¬ (clearsSection (pyStrip raw) = true) := by
      simp [bullet_not_clears _ hb]
    constructor
    · intro hcond
      unfold lineStep
      rw [if_neg hg, if_neg (by simp [hA]), if_neg (by simp [hB]), if_neg (by simp [hC]),
        if_neg (by simp [hD]), if_neg (by simp [hE]), if_neg hclears,
        if_pos ⟨hb, hlen⟩, if_pos hcond.1]
      have hdp : bulletAppend st.dp st.current (pyStrip ((pyStrip raw).drop 1))
          = setCat st.dp s (getCat st.dp s ++ [(pyStrip ((pyStrip raw).drop 1)).take 150]) := by
        rw [hs]
        show (if (getCat st.dp s).length < 5
          then setCat st.dp s (getCat st.dp s ++ [(pyStrip ((pyStrip raw).drop 1)).take 150])
          else st.dp) = _
        rw [if_pos hcond.2]
      rw [hdp]
    · intro hcond
      unfold lineStep
      rw [if_neg hg, if_neg (by simp [hA]), if_neg (by simp [hB]), if_neg (by simp [hC]),
        if_neg (by simp [hD]), if_neg (by simp [hE]), if_neg hclears,
        if_pos ⟨hb, hlen⟩]
      by_cases hc10 : 10 < (pyStrip ((pyStrip raw).drop 1)).length
      · rw [if_pos hc10]
        have hcap : ¬ (getCat st.dp s).length < 5 := fun hb2 => hcond ⟨hc10, hb2⟩
        have hdp : bulletAppend st.dp st.current (pyStrip ((pyStrip raw).drop 1)) = st.dp := by
          rw [hs]
          show (if (getCat st.dp s).length < 5
            then setCat st.dp s (getCat st.dp s ++ [(pyStrip ((pyStrip raw).drop 1)).take 150])
            else st.dp) = st.dp
          rw [if_neg hcap]
        rw [hdp]
      · rw [if_neg hc10]

/-- Witness for C5: a concrete header line sets the section and emits
nothing; a concrete risk bullet inside the risks section is stripped and
appended. -/
theorem section_scan_line_behavior_witness :
    lineStep { current := none, dp := emptyDP } "Total Insights:".data
      = { current := some Sect.insights, dp := emptyDP }
    ∧ lineStep { current := some Sect.risks, dp := emptyDP }
        "- Currency volatility remains elevated".data
      = { current := some Sect.risks,
          dp := (setCat emptyDP Sect.risks
            ((getCat emptyDP Sect.risks)
              ++ [(pyStrip ((pyStrip "- Currency volatility remains elevated".data).drop 1)).take 150])) } :=
  ⟨(section_scan_line_behavior { current := none, dp := emptyDP } "Total Insights:".data).1
      (by decide),
   ((section_scan_line_behavior { current := some Sect.risks, dp := emptyDP }
        "- Currency volatility remains elevated".data).2.2.2.2.2.2 Sect.risks rfl
      (by decide) (by decide) (by decide) (by decide) (by decide) (by decide) (by decide)).1
      ⟨by decide, by decide⟩⟩

/-! ## Matcher decomposition lemmas (for C4 and C9) -/

/-- `dotSplit` splits its input. -/
theorem dotSplit_append (l : List Char) : (dotSplit l).1 ++ (dotSplit l).2 = l := by
  cases l with
  | nil => rfl
  | cons c t =>
    simp only [dotSplit]
    split_ifs <;> simp

/-- `sufSplit` splits its input. -/
theorem sufSplit_append (l : List Char) : (sufSplit l).1 ++ (sufSplit l).2 = l := by
  cases l with
  | nil => rfl
  | cons c t =>
    simp only [sufSplit]
    split_ifs <;> simp

/-- `matchCommaGroups` splits its input. -/
theorem matchCommaGroups_append (l : List Char) :
    (matchCommaGroups l).1 ++ (matchCommaGroups l).2 = l := by
  induction l using matchCommaGroups.induct with
  | case1 a b c d t hcond ih =>
    simp only [matchCommaGroups]
    rw [if_pos hcond]
    show a :: b :: c :: d :: ((matchCommaGroups t).1 ++ (matchCommaGroups t).2)
      = a :: b :: c :: d :: t
    rw [ih]
  | case2 a b c d t hcond =>
    simp only [matchCommaGroups]
    rw [if_neg hcond]
    rfl
  | case3 l hne => simp [matchCommaGroups]

/-- `decSplit` splits its input. -/
theorem decSplit_append (l : List Char) : (decSplit l).1 ++ (decSplit l).2 = l := by
  match l with
  | [] => rfl
  | [a] => rfl
  | [a, b] => rfl
  | a :: b :: c :: t =>
    simp only [decSplit]
    split_ifs <;> simp

/-- A successful `matchDollar` splits its input into capture and rest. -/
theorem matchDollar_append (l cap rest : List Char)
    (h : matchDollar l = some (cap, rest)) : cap ++ rest = l := by
  cases l with
  | nil => simp [matchDollar] at h
  | cons c cs =>
    simp only [matchDollar] at h
    by_cases hc : c = '$'
    · rw [if_pos hc] at h
      by_cases hds : cs.takeWhile isDigComma = []
      · rw [if_pos hds] at h
        exact absurd h (by simp)
      · rw [if_neg hds] at h
        simp only [Option.some.injEq, Prod.mk.injEq] at h
        obtain ⟨hcap, hrest⟩ := h
        subst hcap hrest hc
        simp only [List.cons_append, List.append_assoc]
        rw [sufSplit_append, List.takeWhile_append_dropWhile, dotSplit_append,
          List.takeWhile_append_dropWhile]
    · rw [if_neg hc] at h
      exact absurd h (by simp)

/-- A successful `matchScaleWord` leaves a suffix of its input. -/
theorem matchScaleWord_rest (l r : List Char) (h : matchScaleWord l = some r) :
    ∃ w, w ++ r = l := by
  unfold matchScaleWord at h
  split_ifs at h with h1 h2 h3
  · simp only [Option.some.injEq] at h
    subst h
    exact ⟨l.take 7, List.take_append_drop 7 l⟩
  · simp only [Option.some.injEq] at h
    subst h
    exact ⟨l.take 7, List.take_append_drop 7 l⟩
  · simp only [Option.some.injEq] at h
    subst h
    exact ⟨l.take 8, List.take_append_drop 8 l⟩
  · cases l with
    | nil => simp at h
    | cons c t =>
      simp only at h
      split_ifs at h with h4
      simp only [Option.some.injEq] at h
      subst h
      exact ⟨[c], rfl⟩

/-- A successful `matchScaled` splits its input into capture, a consumed
middle (whitespace plus scale word), and the rest. -/
theorem matchScaled_parts (l cap rest : List Char)
    (h : matchScaled l = some (cap, rest)) : ∃ mid, cap ++ (mid ++ rest) = l := by
  simp only [matchScaled] at h
  by_cases hds : l.takeWhile Char.isDigit = []
  · rw [if_pos hds] at h
    exact absurd h (by simp)
  · rw [if_neg hds] at h
    cases hsw : matchScaleWord ((decSplit (matchCommaGroups (l.dropWhile Char.isDigit)).2).2.dropWhile pyIsSpace) with
    | none =>
      rw [hsw] at h
      exact absurd h (by simp)
    | some r5 =>
      rw [hsw] at h
      simp only [Option.some.injEq, Prod.mk.injEq] at h
      obtain ⟨hcap, hrest⟩ := h
      subst hcap hrest
      obtain ⟨w, hw⟩ := matchScaleWord_rest _ _ hsw
      refine ⟨(decSplit (matchCommaGroups (l.dropWhile Char.isDigit)).2).2.takeWhile pyIsSpace ++ w, ?_⟩
      simp only [List.append_assoc]
      rw [hw, List.takeWhile_append_dropWhile, decSplit_append, matchCommaGroups_append,
        List.takeWhile_append_dropWhile]

/-- A successful shape match splits its input. -/
theorem matchShape_parts (sh : VShape) (l cap rest : List Char)
    (h : matchShape sh l = some (cap, rest)) : ∃ mid, cap ++ (mid ++ rest) = l := by
  cases sh with
  | dollar =>
    refine ⟨[], ?_⟩
    simp only [List.nil_append]
    exact matchDollar_append l cap rest h
  | scaled => exact matchScaled_parts l cap rest h

/-- A successful lazy-dot-star-plus-value match decomposes its input. -/
theorem lazyValue_parts (sh : VShape) :
    ∀ (l cap rest : List Char), lazyValue sh l = some (cap, rest) →
      ∃ pre mid, pre ++ (cap ++ (mid ++ rest)) = l := by
  intro l
  induction l with
  | nil => intro cap rest h; simp [lazyValue] at h
  | cons c t ih =>
    intro cap rest h
    simp only [lazyValue] at h
    cases hm : matchShape sh (c :: t) with
    | some r =>
      rw [hm] at h
      simp only [Option.some.injEq] at h
      subst h
      obtain ⟨mid, hmid⟩ := matchShape_parts sh (c :: t) cap rest hm
      exact ⟨[], mid, by simpa using hmid⟩
    | none =>
      rw [hm] at h
      by_cases hnl : c = '\n'
      · rw [if_pos hnl] at h
        exact absurd h (by simp)
      · rw [if_neg hnl] at h
        obtain ⟨pre, mid, hpm⟩ := ih cap rest h
        exact ⟨c :: pre, mid, by rw [List.cons_append, hpm]⟩

/-- A successful label-alternation match decomposes its input. -/
theorem matchLabelsAt_parts :
    ∀ (labs : List (List Char)) (sh : VShape) (l cap rest : List Char),
      matchLabelsAt labs sh l = some (cap, rest) →
      ∃ pre mid, pre ++ (cap ++ (mid ++ rest)) = l := by
  intro labs
  induction labs with
  | nil => intro sh l cap rest h; simp [matchLabelsAt] at h
  | cons lab labs' ih =>
    intro sh l cap rest h
    simp only [matchLabelsAt] at h
    by_cases hp : isPrefixCI lab l = true
    · rw [if_pos hp] at h
      cases hl : lazyValue sh (l.drop lab.length) with
      | some r =>
        rw [hl] at h
        simp only [Option.some.injEq] at h
        subst h
        obtain ⟨pre, mid, hpm⟩ := lazyValue_parts sh _ cap rest hl
        refine ⟨l.take lab.length ++ pre, mid, ?_⟩
        rw [List.append_assoc, hpm, List.take_append_drop]
      | none =>
        rw [hl] at h
        exact ih sh l cap rest h
    · rw [if_neg hp] at h
      exact ih sh l cap rest h

/-- A successful full-pattern match decomposes its input. -/
theorem matchPatAt_parts (p : MPat) (l cap rest : List Char)
    (h : matchPatAt p l = some (cap, rest)) :
    ∃ pre mid, pre ++ (cap ++ (mid ++ rest)) = l :=
  matchLabelsAt_parts p.labels p.shape l cap rest h

/-- Every capture emitted by the bounded scan is a contiguous substring of
the scanned text. -/
theorem findallAux_mem (p : MPat) :
    ∀ (fuel : Nat) (l cap : List Char), cap ∈ findallAux p fuel l → cap <:+: l := by
  intro fuel
  induction fuel with
  | zero => intro l cap h; simp [findallAux] at h
  | succ n ih =>
    intro l cap h
    cases l with
    | nil => simp [findallAux] at h
    | cons c cs =>
      simp only [findallAux] at h
      cases hm : matchPatAt p (c :: cs) with
      | some pr =>
        obtain ⟨cap', rest'⟩ := pr
        rw [hm] at h
        simp only [List.mem_cons] at h
        obtain ⟨pre, mid, hpm⟩ := matchPatAt_parts p (c :: cs) cap' rest' hm
        rcases h with h | h
        · subst h
          refine ⟨pre, mid ++ rest', ?_⟩
          rw [← hpm]
          simp [List.append_assoc]
        · obtain ⟨s, t, hst⟩ := ih rest' cap h
          refine ⟨pre ++ cap' ++ mid ++ s, t, ?_⟩
          rw [← hpm, ← hst]
          simp [List.append_assoc]
      | none =>
        rw [hm] at h
        obtain ⟨s, t, hst⟩ := ih cs cap h
        refine ⟨c :: s, t, ?_⟩
        rw [← hst]
        simp [List.append_assoc]

/-- Every capture of `findall` is a contiguous substring of the text. -/
theorem findall_mem (p : MPat) (l cap : List Char) (h : cap ∈ findall p l) :
    cap <:+: l :=
  findallAux_mem p (l.length + 1) l cap h

/-- A `firstCapture` value is a capture of one of the pattern variants. -/
theorem firstCapture_mem :
    ∀ (ps : List MPat) (t v : List Char), firstCapture ps t = some v →
      ∃ p, p ∈ ps ∧ v ∈ findall p t := by
  intro ps
  induction ps with
  | nil => intro t v h; simp [firstCapture] at h
  | cons p ps' ih =>
    intro t v h
    simp only [firstCapture] at h
    cases hf : findall p t with
    | nil =>
      rw [hf] at h
      obtain ⟨q, hq, hv⟩ := ih t v h
      exact ⟨q, List.mem_cons_of_mem p hq, hv⟩
    | cons m ms =>
      rw [hf] at h
      simp only [Option.some.injEq] at h
      subst h
      exact ⟨p, List.mem_cons_self p ps', by rw [hf]; exact List.mem_cons_self m ms⟩

/-- A metrics entry originates from some pattern variant's capture list. -/
theorem extractMetrics_mem (t : List Char) (name : String) (v : List Char)
    (h : (name, v) ∈ extractMetrics t) :
    ∃ ps p, (name, ps) ∈ financialPatterns ∧ p ∈ ps ∧ v ∈ findall p t := by
  unfold extractMetrics at h
  rw [List.mem_filterMap] at h
  obtain ⟨np, hnp, hf⟩ := h
  obtain ⟨n1, ps⟩ := np
  cases ho : firstCapture ps t with
  | none => rw [ho] at hf; simp at hf
  | some w =>
    rw [ho] at hf
    simp only [Option.map_some', Option.some.injEq, Prod.mk.injEq] at hf
    obtain ⟨hn, hw⟩ := hf
    subst hn
    obtain ⟨p, hp, hv⟩ := firstCapture_mem ps t w ho
    exact ⟨ps, p, hnp, hp, hw ▸ hv⟩

/-! ## Metrics are not touched by the finding passes -/

/-- Bullet appending leaves the metrics untouched. -/
theorem bulletAppend_metrics (dp : DataPoints) (cur : Option Sect) (content : List Char) :
    (bulletAppend dp cur content).metrics = dp.metrics := by
  cases cur with
  | none => rfl
  | some s =>
    show (if (getCat dp s).length < 5
      then setCat dp s (getCat dp s ++ [content.take 150]) else dp).metrics = dp.metrics
    split_ifs with h
    all_goals try rfl
    all_goals exact setCat_metrics dp s _

/-- The section line scan leaves the metrics untouched. -/
theorem lineStep_metrics (st : ScanState) (raw : List Char) :
    (lineStep st raw).dp.metrics = st.dp.metrics := by
  unfold lineStep
  repeat' split
  all_goals try rfl
  all_goals exact bulletAppend_metrics st.dp st.current _

/-- The fallback line scan leaves the metrics untouched. -/
theorem fallbackLineStep_metrics (s : Sect) (dp : DataPoints) (raw : List Char) :
    (fallbackLineStep s dp raw).metrics = dp.metrics := by
  unfold fallbackLineStep
  repeat' split
  all_goals try rfl
  all_goals exact setCat_metrics dp s _

/-- The section pass computes exactly the pattern-loop metrics. -/
theorem sectionPass_metrics (text : List Char) :
    (sectionPass text).dp.metrics = extractMetrics text := by
  unfold sectionPass
  exact foldl_preserve (fun st : ScanState => st.dp.metrics = extractMetrics text) lineStep
    (fun a b ha => by show (lineStep a b).dp.metrics = _; rw [lineStep_metrics]; exact ha)
    (pySplitLines text) { current := none, dp := initialDP text } rfl

/-- The fallback pass leaves the metrics untouched. -/
theorem fallbackPass_metrics (text : List Char) (dp : DataPoints) :
    (fallbackPass text dp).metrics = dp.metrics := by
  unfold fallbackPass
  refine foldl_preserve (fun d : DataPoints => d.metrics = dp.metrics) _
    (fun a b ha => ?_) fallbackHeaders dp rfl
  refine foldl_preserve (fun d : DataPoints => d.metrics = dp.metrics) _
    (fun a2 b2 ha2 => ?_) b.2 a ha
  unfold fallbackForHeader
  cases idxOfSub (pyLower b2) (pyLower text) with
  | none => exact ha2
  | some idx =>
    exact foldl_preserve (fun d : DataPoints => d.metrics = dp.metrics) _
      (fun a3 b3 ha3 => by
        show (fallbackLineStep b.1 a3 b3).metrics = _
        rw [fallbackLineStep_metrics]
        exact ha3)
      _ a2 ha2

/-- The metrics of the full pipeline are the pattern-loop metrics over the
scanned (word-capped) text. -/
theorem extract_metrics_eq (t : List Char) :
    (extract_financial_data_points t).metrics = extractMetrics (scannedText t) := by
  show (withFallback (scannedText t) (sectionPass (scannedText t)).dp).metrics = _
  unfold withFallback
  split_ifs with h
  · rw [fallbackPass_metrics]
    exact sectionPass_metrics (scannedText t)
  · exact sectionPass_metrics (scannedText t)

/-! ## C4: first pattern variant and first occurrence win -/

/-- The pattern loop with `break`: the first variant whose `findall` is
nonempty supplies the value, and the value is the first capture. -/
theorem firstCapture_split (t : List Char) :
    ∀ (pre : List MPat) (p : MPat) (post : List MPat),
      (∀ q ∈ pre, findall q t = []) → findall p t ≠ [] →
      firstCapture (pre ++ p :: post) t = (findall p t).head? := by
  intro pre
  induction pre with
  | nil =>
    intro p post _ hp
    simp only [List.nil_append]
    cases hfd : findall p t with
    | nil => exact absurd hfd hp
    | cons m ms => simp [firstCapture, hfd]
  | cons q qs ih =>
    intro p post hpre hp
    have hq : findall q t = [] := hpre q (List.mem_cons_self q qs)
    simp only [List.cons_append, firstCapture, hq]
    exact ih p post (fun r hr => hpre r (List.mem_cons_of_mem q hr)) hp

/-- Looking a metric name up in the produced dict gives exactly that
metric's pattern-loop outcome. -/
theorem extractMetrics_lookup (t : List Char) (name : String) (ps : List MPat)
    (hmem : (name, ps) ∈ financialPatterns) :
    (extractMetrics t).lookup name = firstCapture ps t := by
  simp only [financialPatterns, List.mem_cons, List.not_mem_nil, or_false,
    Prod.mk.injEq] at hmem
  unfold extractMetrics financialPatterns
  rcases hmem with ⟨rfl, rfl⟩ | ⟨rfl, rfl⟩ | ⟨rfl, rfl⟩ | ⟨rfl, rfl⟩ <;>
    (cases h1 : firstCapture revenuePats t <;>
     cases h2 : firstCapture operatingIncomePats t <;>
     cases h3 : firstCapture netIncomePats t <;>
     cases h4 : firstCapture cashPats t <;>
     simp [List.filterMap_cons, h1, h2, h3, h4, List.lookup,
       (by decide : (("revenue" : String) == "operating_income") = false),
       (by decide : (("revenue" : String) == "net_income") = false),
       (by decide : (("revenue" : String) == "cash") = false),
       (by decide : (("operating_income" : String) == "revenue") = false),
       (by decide : (("operating_income" : String) == "net_income") = false),
       (by decide : (("operating_income" : String) == "cash") = false),
       (by decide : (("net_income" : String) == "revenue") = false),
       (by decide : (("net_income" : String) == "operating_income") = false),
       (by decide : (("net_income" : String) == "cash") = false),
       (by decide : (("cash" : String) == "revenue") = false),
       (by decide : (("cash" : String) == "operating_income") = false),
       (by decide : (("cash" : String) == "net_income") = false)])

/-- C4.  For every input and metric, the first pattern variant (in the
fixed priority order of `financial_patterns`) whose `findall` over the
scanned text is nonempty determines the metric's value, and the value is
the FIRST capture of that variant's scan (`matches[0]`); earlier variants
with no match contribute nothing and later variants and later occurrences
are never consulted. -/
theorem metric_first_pattern_wins (t : List Char) (name : String) (ps : List MPat)
    (pre : List MPat) (p : MPat) (post : List MPat)
    (hmem : (name, ps) ∈ financialPatterns)
    (hsplit : ps = pre ++ p :: post)
    (hpre : ∀ q ∈ pre, findall q (scannedText t) = [])
    (hp : findall p (scannedText t) ≠ []) :
    (extract_financial_data_points t).metrics.lookup name
      = (findall p (scannedText t)).head? := by
  rw [extract_metrics_eq, extractMetrics_lookup (scannedText t) name ps hmem, hsplit]
  exact firstCapture_split (scannedText t) pre p post hpre hp

/-- Witness for C4 at the concrete input of the claim: the text holds
`Revenue: $500M` and, later, `Sales grew to $600M`; the revenue metric is
`$500M`, the first capture of the first (currency) pattern variant. -/
theorem metric_first_pattern_wins_witness :
    (extract_financial_data_points "Revenue: $500M. Sales grew to $600M".data).metrics.lookup "revenue"
      = some "$500M".data
    ∧ findall ⟨["revenue".data, "sales".data, "total revenue".data], VShape.dollar⟩
        (scannedText "Revenue: $500M. Sales grew to $600M".data)
      = ["$500M".data, "$600M".data] :=
  ⟨Eq.trans
    (metric_first_pattern_wins "Revenue: $500M. Sales grew to $600M".data "revenue"
      revenuePats []
      ⟨["revenue".data, "sales".data, "total revenue".data], VShape.dollar⟩
      [⟨["revenue".data, "sales".data], VShape.scaled⟩]
      (by decide) rfl
      (fun q hq => absurd hq (List.not_mem_nil q))
      (by decide))
    (by decide),
   by decide⟩

/-! ## C9: metric values are verbatim substrings of the scanned text -/

/-- C9 (amended).  Every value in the returned metrics mapping is the
captured string exactly as it occurs in the scanned text — a contiguous
substring of the truncated text the extraction operates on, kept verbatim
and never parsed to a number.  (For inputs up to 200 words the scanned
text is the input itself.) -/
theorem metric_values_verbatim (t : List Char) (name : String) (v : List Char)
    (h : (name, v) ∈ (extract_financial_data_points t).metrics) :
    v <:+: scannedText t := by
  rw [extract_metrics_eq] at h
  obtain ⟨ps, p, _, _, hv⟩ := extractMetrics_mem (scannedText t) name v h
  exact findall_mem p (scannedText t) v hv

/-- Witness for the amended C9 at a concrete input. -/
theorem metric_values_verbatim_witness :
    "$5M".data <:+: scannedText "Revenue: $5M".data :=
  metric_values_verbatim "Revenue: $5M".data "revenue" "$5M".data (by decide)

/-- A 201-word report: `revenue`, 198 filler words, `$500` as the 200th
word, and one extra word. -/
def c9Input : List Char :=
  joinSpace (["revenue".data] ++ List.replicate 198 ['a'] ++ ["$500".data, ['z']])

/-- C9 (counterexample).  On a 201-word input the 200-word truncation glues
the marker `... [truncated to 200 words]` directly onto the 200th word, and
the greedy `\$[\d,]+\.?\d*` shape captures `$500.` — the final dot comes
from the marker.  The stored value is then NOT a contiguous substring of
the original input (which contains no dot at all): the claim's "contiguous
substring of the input" fails for inputs past the word cap. -/
theorem captured_value_not_in_input :
    (extract_financial_data_points c9Input).metrics.lookup "revenue" = some "$500.".data
    ∧ ¬ ("$500.".data <:+: c9Input) := by
  constructor
  · decide
  · decide
